import Mathlib

/-!
Verification of the MCP calendar server (Express/JSON-RPC, two variants:
a local in-memory event store and a Google-Calendar-backed remote store).

Shallow embedding conventions:
* ISO-8601 date/time strings are modelled by their parsed epoch values
  (`Int`); the JS code compares `new Date(a) >= new Date(b)`, which on
  valid date strings is exactly integer comparison of the parsed values.
  Invalid/unparseable date strings are outside the model.
* A JS object field that may be absent (`undefined`) is an `Option`;
  `none` is `undefined`.  JSON `null` argument values are outside the model.
* `uuidv4()` is modelled by a fresh-id counter carried in the store
  (`nextId`): its contract is that every generated id is distinct from
  every id generated before.
* A thrown JS exception is `Except.error` carrying the message string
  (for the `TypeError` raised by `undefined.toLowerCase()` we use the
  fixed text "TypeError"; no claim inspects that message).
* The human-readable `content` text lines of tool results are elided;
  the structured payload (`event`, `events`, `deleted_event_id`) is kept.
-/

/-- JS `x || d` for an optional non-negative integer: `undefined` and the
falsy value `0` both fall back to the default (models `args.limit || 10`). -/
def jsOrDefault (o : Option Nat) (d : Nat) : Nat :=
  match o with
  | none => d
  | some 0 => d
  | some n => n

/-- JS `x || d` for an optional string: `undefined` and the falsy empty
string both fall back to the default (models `args.calendar_id || 'primary'`). -/
def jsOrStr (o : Option String) (d : String) : String :=
  match o with
  | none => d
  | some s => if s = "" then d else s

/-- JS truthiness test on an optional string field (`if (args.time_min)`):
absent and empty are falsy. -/
def jsTruthyStr (o : Option String) : Option String :=
  match o with
  | none => none
  | some s => if s = "" then none else some s

/-- A JSON-RPC request id: a number, a string, or `null`. -/
inductive JsonId where
  | num (n : Int)
  | str (s : String)
  | null
deriving DecidableEq, Repr

/-- The `req.body?.id || null` — the best-effort id used on the −32603 catch
path; JS falsiness collapses `0`, `""` and `null` to `null`. -/
def recoverId (i : JsonId) : JsonId :=
  match i with
  | .num 0 => .null
  | .str "" => .null
  | .null => .null
  | i => i

/-- JS template interpolation of an optional numeric id
(template literal in the not-found message). -/
def idText (o : Option Nat) : String :=
  match o with
  | some n => toString n
  | none => "undefined"

/-- The `String.prototype.includes` on the underlying character lists:
the needle occurs as a contiguous run somewhere in the haystack. -/
def listContains (needle : List Char) : List Char → Bool
  | [] => needle.isPrefixOf []
  | c :: rest => needle.isPrefixOf (c :: rest) || listContains needle rest

/-- Case-insensitive substring test:
`hay.toLowerCase().includes(needle.toLowerCase())`.  Lowercasing is
`Char.toLower` applied characterwise (what `toLowerCase` does on the
ASCII fragment; `String.toLower` is the same map, but its string-level
implementation does not kernel-reduce, so we work on the char lists). -/
def containsCI (hay needle : String) : Bool :=
  listContains (needle.data.map Char.toLower) (hay.data.map Char.toLower)

/-- A calendar event as stored by the local in-memory variant.
`title`, `start_time`, `end_time` are `Option` because `createEvent`
copies them from the arguments without validation, so they can be
`undefined` in a stored event. -/
structure Event where
  id : Nat
  title : Option String
  description : String
  start_time : Option Int
  end_time : Option Int
  location : String
  attendees : List String
  created_at : Int
  updated_at : Option Int
deriving DecidableEq, Repr

/-- The in-memory store: the `events` array plus the fresh-id counter
modelling `uuidv4()`. -/
structure Store where
  events : List Event
  nextId : Nat
deriving DecidableEq, Repr

/-- The argument object of a `tools/call`: one JS object whose fields are
all optional; each tool reads the fields it cares about. -/
structure ArgsObj where
  title : Option String := none
  description : Option String := none
  start_time : Option Int := none
  end_time : Option Int := none
  location : Option String := none
  attendees : Option (List String) := none
  event_id : Option Nat := none
  start_date : Option Int := none
  end_date : Option Int := none
  limit : Option Nat := none
  query : Option String := none
deriving DecidableEq, Repr

/-- The `e.id === args.event_id`: comparison with `undefined` is false. -/
def idMatches (e : Event) (o : Option Nat) : Bool :=
  match o with
  | some n => e.id == n
  | none => false

/-- The `createEvent(args)` of the local variant: builds the event (defaults
via `||`), pushes it, always succeeds.  `now` is the value of
`new Date()` at the call. -/
def createEvent (args : ArgsObj) (now : Int) (s : Store) : Event × Store :=
  let e : Event :=
    { id := s.nextId
      title := args.title
      description := args.description.getD ""
      start_time := args.start_time
      end_time := args.end_time
      location := args.location.getD ""
      attendees := args.attendees.getD []
      created_at := now
      updated_at := none }
  (e, { events := s.events ++ [e], nextId := s.nextId + 1 })

/-- The `new Date(e.start_time) >= startDate`; an `undefined` start time
parses to `NaN`, whose comparisons are all false. -/
def dateGe (t : Option Int) (d : Int) : Bool :=
  match t with
  | none => false
  | some x => decide (d ≤ x)

/-- The `new Date(e.start_time) <= endDate`; `NaN` comparisons are false. -/
def dateLe (t : Option Int) (d : Int) : Bool :=
  match t with
  | none => false
  | some x => decide (x ≤ d)

/-- First filter of `listEvents`: applied only when `args.start_date`
is supplied. -/
def startFiltered (args : ArgsObj) (l : List Event) : List Event :=
  match args.start_date with
  | none => l
  | some d => l.filter (fun e => dateGe e.start_time d)

/-- Both filters of `listEvents` in source order. -/
def bothFiltered (args : ArgsObj) (l : List Event) : List Event :=
  match args.end_date with
  | none => startFiltered args l
  | some d => (startFiltered args l).filter (fun e => dateLe e.start_time d)

/-- The `listEvents(args)`: filter, then `slice(0, args.limit || 10)`. -/
def listEvents (args : ArgsObj) (s : Store) : List Event :=
  (bothFiltered args s.events).take (jsOrDefault args.limit 10)

/-- The `getEvent(args)`: `events.find(e => e.id === args.event_id)`,
throwing "Event not found" when there is none. -/
def getEvent (args : ArgsObj) (s : Store) : Except String Event :=
  match s.events.find? (fun e => idMatches e args.event_id) with
  | none => .error ("Event not found: " ++ idText args.event_id)
  | some e => .ok e

/-- The field merge of `updateEvent`: each `!== undefined` field
overwrites; `updated_at` is set to the current time. -/
def applyUpdate (args : ArgsObj) (e : Event) (now : Int) : Event :=
  { e with
    title := match args.title with | some v => some v | none => e.title
    description := args.description.getD e.description
    start_time := match args.start_time with | some v => some v | none => e.start_time
    end_time := match args.end_time with | some v => some v | none => e.end_time
    location := args.location.getD e.location
    attendees := args.attendees.getD e.attendees
    updated_at := some now }

/-- The `findIndex` + in-place mutation of `updateEvent`: rewrite the first
event whose id matches, leaving everything else untouched. -/
def updateList (args : ArgsObj) (now : Int) : List Event → Option (Event × List Event)
  | [] => none
  | e :: rest =>
    if idMatches e args.event_id then
      let e2 := applyUpdate args e now
      some (e2, e2 :: rest)
    else
      match updateList args now rest with
      | none => none
      | some (e2, rest2) => some (e2, e :: rest2)

/-- The `updateEvent(args)`: not-found throws before any mutation. -/
def updateEvent (args : ArgsObj) (now : Int) (s : Store) :
    Except String (Event × Store) :=
  match updateList args now s.events with
  | none => .error ("Event not found: " ++ idText args.event_id)
  | some (e2, l) => .ok (e2, { events := l, nextId := s.nextId })

/-- The `findIndex` + `splice(i, 1)` of `deleteEvent`: remove the first
event whose id matches, returning it. -/
def deleteList (args : ArgsObj) : List Event → Option (Event × List Event)
  | [] => none
  | e :: rest =>
    if idMatches e args.event_id then some (e, rest)
    else
      match deleteList args rest with
      | none => none
      | some (d, rest2) => some (d, e :: rest2)

/-- The `deleteEvent(args)`: not-found throws before any mutation. -/
def deleteEvent (args : ArgsObj) (s : Store) : Except String (Event × Store) :=
  match deleteList args s.events with
  | none => .error ("Event not found: " ++ idText args.event_id)
  | some (d, l) => .ok (d, { events := l, nextId := s.nextId })

/-- One step of the `searchEvents` filter predicate:
`e.title.toLowerCase().includes(q) || e.description.toLowerCase().includes(q)`.
`none` signals the `TypeError` thrown when `title` is `undefined`
(`title.toLowerCase()` is evaluated first, so `||` never rescues it). -/
def searchMatch (q : String) (e : Event) : Option Bool :=
  match e.title with
  | none => none
  | some t => some (containsCI t q || containsCI e.description q)

/-- The `events.filter(...)` of `searchEvents`; `none` if the predicate
throws on any element. -/
def searchFilter (q : String) : List Event → Option (List Event)
  | [] => some []
  | e :: rest =>
    match searchMatch q e with
    | none => none
    | some b =>
      match searchFilter q rest with
      | none => none
      | some l => some (if b then e :: l else l)

/-- The `searchEvents(args)`: `args.query.toLowerCase()` throws when `query`
is absent; otherwise filter then `slice(0, args.limit || 10)`. -/
def searchEvents (args : ArgsObj) (s : Store) : Except String (List Event) :=
  match args.query with
  | none => .error "TypeError"
  | some q =>
    match searchFilter q s.events with
    | none => .error "TypeError"
    | some l => .ok (l.take (jsOrDefault args.limit 10))

/-- The `tools/call` params: `{ name, arguments }`.  (An absent `arguments`
object is outside the model; every claim supplies one.) -/
structure RpcParams where
  name : String
  arguments : ArgsObj := {}
deriving DecidableEq, Repr

/-- An inbound JSON-RPC envelope as destructured by the handler:
`const { jsonrpc, method, params, id } = req.body`. -/
structure RpcRequest where
  jsonrpc : String
  method : String
  params : Option RpcParams := none
  id : JsonId
deriving DecidableEq, Repr

/-- The structured payload of a successful tool result (the
human-readable `content` line is elided). -/
inductive ToolResult where
  | created (e : Event)
  | listed (es : List Event)
  | got (e : Event)
  | updated (e : Event)
  | deleted (deletedId : Option Nat)
  | searched (es : List Event)
deriving DecidableEq, Repr

/-- The `result` of a non-tool method handler. -/
inductive RouterResult where
  | initResult
  | emptyResult
  | toolsList
  | toolResult (r : ToolResult)
deriving DecidableEq, Repr

/-- The body of an outbound response: `result` or `error {code, message, data}`. -/
inductive RpcOutcome where
  | ok (r : RouterResult)
  | err (code : Int) (message : String) (data : Option String)
deriving DecidableEq, Repr

/-- An outbound JSON-RPC response. -/
structure RpcResponse where
  id : JsonId
  outcome : RpcOutcome
deriving DecidableEq, Repr

/-- The `createError(id, code, message, data)` from the source. -/
def createError (i : JsonId) (code : Int) (message : String)
    (data : Option String := none) : RpcResponse :=
  { id := i, outcome := .err code message data }

/-- The `createResponse(id, result)` from the source (success shape). -/
def createResponse (i : JsonId) (r : RouterResult) : RpcResponse :=
  { id := i, outcome := .ok r }

/-- The set of tool names the dispatcher's `switch` recognizes
(local variant). -/
def knownTool (name : String) : Bool :=
  name == "create_event" || name == "list_events" || name == "get_event" ||
  name == "update_event" || name == "delete_event" || name == "search_events"

/-- The `handleToolCall(params)` of the local variant: dispatch on the tool
name; an unrecognized name throws `Unknown tool: ...`. -/
def handleToolCall (name : String) (args : ArgsObj) (now : Int) (s : Store) :
    Except String (ToolResult × Store) :=
  if name = "create_event" then
    let (e, s2) := createEvent args now s
    .ok (.created e, s2)
  else if name = "list_events" then
    .ok (.listed (listEvents args s), s)
  else if name = "get_event" then
    (getEvent args s).map (fun e => (.got e, s))
  else if name = "update_event" then
    (updateEvent args now s).map (fun p => (.updated p.1, p.2))
  else if name = "delete_event" then
    (deleteEvent args s).map (fun p => (.deleted args.event_id, p.2))
  else if name = "search_events" then
    (searchEvents args s).map (fun l => (.searched l, s))
  else
    .error ("Unknown tool: " ++ name)

/-- The `/mcp` POST handler of the local variant: envelope check, method
switch, and the catch-all that reports any thrown failure as −32603 with
`req.body?.id || null` as the response id.  The store is threaded
explicitly; `now` is the clock at the call. -/
def handleRequest (req : RpcRequest) (now : Int) (s : Store) :
    RpcResponse × Store :=
  if req.jsonrpc ≠ "2.0" then
    (createError req.id (-32600) "Invalid Request", s)
  else if req.method = "initialize" then
    (createResponse req.id .initResult, s)
  else if req.method = "notifications/initialized" then
    (createResponse req.id .emptyResult, s)
  else if req.method = "tools/list" then
    (createResponse req.id .toolsList, s)
  else if req.method = "tools/call" then
    match req.params with
    | none =>
      (createError (recoverId req.id) (-32603) "Internal error" (some "TypeError"), s)
    | some p =>
      match handleToolCall p.name p.arguments now s with
      | .ok (r, s2) => (createResponse req.id (.toolResult r), s2)
      | .error msg =>
        (createError (recoverId req.id) (-32603) "Internal error" (some msg), s)
  else
    (createError req.id (-32601) "Method not found", s)

/-! Remote (Google-Calendar) variant: the auth gate and the
falsy-default parameter construction, the parts that run locally. -/

/-- The `userTokens` object of `server.js`. -/
structure Tokens where
  access_token : Option String := none
  refresh_token : Option String := none
deriving DecidableEq, Repr

/-- JS truthiness of an optional string token. -/
def tokenTruthy (o : Option String) : Bool :=
  match o with
  | none => false
  | some s => !(s == "")

/-- The `isAuthenticated()`: `userTokens.access_token && userTokens.refresh_token`. -/
def isAuthenticated (t : Tokens) : Bool :=
  tokenTruthy t.access_token && tokenTruthy t.refresh_token

/-- What the remote variant's router does with a request, up to the
point where it would hand off to the (external) Google-backed dispatcher. -/
inductive RemoteAction where
  | respondInit
  | respondEmpty
  | respondToolsList
  | respondError (code : Int) (message : String) (authUrl : Option String)
  | dispatch (p : Option RpcParams)
deriving DecidableEq, Repr

/-- The `/mcp` handler of `server.js` up to tool dispatch: identical
envelope/method switch, but `tools/call` first consults the auth gate
and short-circuits with −32001 plus `auth_url` before touching params. -/
def routeRemote (baseUrl : String) (t : Tokens) (req : RpcRequest) : RemoteAction :=
  if req.jsonrpc ≠ "2.0" then
    .respondError (-32600) "Invalid Request" none
  else if req.method = "initialize" then
    .respondInit
  else if req.method = "notifications/initialized" then
    .respondEmpty
  else if req.method = "tools/list" then
    .respondToolsList
  else if req.method = "tools/call" then
    if !isAuthenticated t then
      .respondError (-32001) "Authentication required" (some (baseUrl ++ "/auth"))
    else
      .dispatch req.params
  else
    .respondError (-32601) "Method not found" none

/-- Arguments of the remote variant's `list_events`. -/
structure RemoteListArgs where
  calendar_id : Option String := none
  time_min : Option String := none
  time_max : Option String := none
  max_results : Option Nat := none
  single_events : Option Bool := none
deriving DecidableEq, Repr

/-- The parameter object sent to `calendar.events.list`. -/
structure GoogleListParams where
  calendarId : String
  maxResults : Nat
  singleEvents : Bool
  timeMin : Option String
  timeMax : Option String
deriving DecidableEq, Repr

/-- The params construction of the remote `listEvents`:
`maxResults: args.max_results || 10`, `singleEvents: args.single_events !== false`,
`timeMin`/`timeMax` only when truthy. -/
def buildListParams (args : RemoteListArgs) : GoogleListParams :=
  { calendarId := jsOrStr args.calendar_id "primary"
    maxResults := jsOrDefault args.max_results 10
    singleEvents := !(args.single_events == some false)
    timeMin := jsTruthyStr args.time_min
    timeMax := jsTruthyStr args.time_max }

/-! Operation traces over the local store (for the id-freshness
invariant). -/

/-- One `tools/call` invocation: tool name, argument object, and the
clock value when it runs. -/
structure Op where
  name : String
  args : ArgsObj
  now : Int
deriving DecidableEq, Repr

/-- The store after one tool invocation (a thrown failure leaves the
store as it was, since every tool mutates only after its checks). -/
def execOp (s : Store) (o : Op) : Store :=
  match handleToolCall o.name o.args o.now s with
  | .ok (_, s2) => s2
  | .error _ => s

/-- The store after a sequence of tool invocations. -/
def run (s : Store) (ops : List Op) : Store :=
  ops.foldl execOp s

/-- Store well-formedness: every stored id was generated (is below the
counter) and ids are pairwise distinct. -/
def WF (s : Store) : Prop :=
  (∀ e ∈ s.events, e.id < s.nextId) ∧ (s.events.map (fun e => e.id)).Nodup

/-- The `eid` was generated before (is below the counter) and no stored
event carries it. -/
def Unused (s : Store) (eid : Nat) : Prop :=
  eid < s.nextId ∧ ∀ e ∈ s.events, e.id ≠ eid

/-! Helper lemmas. -/

theorem applyUpdate_id (args : ArgsObj) (e : Event) (now : Int) :
    (applyUpdate args e now).id = e.id := rfl

theorem updateList_of_find? (args : ArgsObj) (now : Int) :
    ∀ (l : List Event) (e : Event),
      l.find? (fun x => idMatches x args.event_id) = some e →
      ∃ l₁ l₂, l = l₁ ++ e :: l₂ ∧
        (∀ x ∈ l₁, idMatches x args.event_id = false) ∧
        updateList args now l =
          some (applyUpdate args e now, l₁ ++ applyUpdate args e now :: l₂) := by
  intro l
  induction l with
  | nil => intro e h; simp [List.find?] at h
  | cons a rest ih =>
    intro e h
    by_cases ha : idMatches a args.event_id
    · have hfa : List.find? (fun x => idMatches x args.event_id) (a :: rest) = some a :=
        List.find?_cons_of_pos rest ha
      rw [hfa] at h
      obtain rfl : a = e := by simpa using h
      exact ⟨[], rest, by simp, by simp, by simp [updateList, ha]⟩
    · have hfa : List.find? (fun x => idMatches x args.event_id) (a :: rest) =
          List.find? (fun x => idMatches x args.event_id) rest :=
        List.find?_cons_of_neg rest ha
      rw [hfa] at h
      obtain ⟨l₁, l₂, hl, hnone, hupd⟩ := ih e h
      refine ⟨a :: l₁, l₂, by simp [hl], ?_, ?_⟩
      · intro x hx
        rcases List.mem_cons.mp hx with rfl | hx
        · simpa using ha
        · exact hnone x hx
      · simp [updateList, ha, hupd]

theorem updateList_eq_none (args : ArgsObj) (now : Int) :
    ∀ (l : List Event), (∀ x ∈ l, idMatches x args.event_id = false) →
      updateList args now l = none := by
  intro l
  induction l with
  | nil => intro _; rfl
  | cons a rest ih =>
    intro h
    have ha : idMatches a args.event_id = false := h a (by simp)
    have hrest := ih (fun x hx => h x (by simp [hx]))
    simp [updateList, ha, hrest]

theorem updateList_map_id (args : ArgsObj) (now : Int) :
    ∀ (l : List Event) (e2 : Event) (l2 : List Event),
      updateList args now l = some (e2, l2) →
      l2.map (fun e => e.id) = l.map (fun e => e.id) := by
  intro l
  induction l with
  | nil => intro e2 l2 h; simp [updateList] at h
  | cons a rest ih =>
    intro e2 l2 h
    by_cases ha : idMatches a args.event_id
    · simp [updateList, ha] at h
      obtain ⟨rfl, rfl⟩ := h
      simp [applyUpdate_id]
    · simp [updateList, ha] at h
      rcases hrec : updateList args now rest with _ | p
      · rw [hrec] at h; simp at h
      · rw [hrec] at h
        simp at h
        obtain ⟨rfl, rfl⟩ := h
        simpa using ih p.1 p.2 hrec

theorem deleteList_eq_some (args : ArgsObj) :
    ∀ (l : List Event) (d : Event) (l2 : List Event),
      deleteList args l = some (d, l2) →
      ∃ l₁ l₂, l = l₁ ++ d :: l₂ ∧ l2 = l₁ ++ l₂ ∧
        idMatches d args.event_id = true := by
  intro l
  induction l with
  | nil => intro d l2 h; simp [deleteList] at h
  | cons a rest ih =>
    intro d l2 h
    by_cases ha : idMatches a args.event_id
    · simp [deleteList, ha] at h
      obtain ⟨rfl, rfl⟩ := h
      exact ⟨[], rest, by simp, by simp, ha⟩
    · simp [deleteList, ha] at h
      rcases hrec : deleteList args rest with _ | p
      · rw [hrec] at h; simp at h
      · rw [hrec] at h
        simp at h
        obtain ⟨rfl, rfl⟩ := h
        obtain ⟨l₁, l₂, hl, hl2, hm⟩ := ih p.1 p.2 hrec
        exact ⟨a :: l₁, l₂, by simp [hl], by simp [hl2], hm⟩

theorem deleteList_of_find? (args : ArgsObj) :
    ∀ (l : List Event) (e : Event),
      l.find? (fun x => idMatches x args.event_id) = some e →
      ∃ l2, deleteList args l = some (e, l2) := by
  intro l
  induction l with
  | nil => intro e h; simp [List.find?] at h
  | cons a rest ih =>
    intro e h
    by_cases ha : idMatches a args.event_id
    · have hfa : List.find? (fun x => idMatches x args.event_id) (a :: rest) = some a :=
        List.find?_cons_of_pos rest ha
      rw [hfa] at h
      obtain rfl : a = e := by simpa using h
      exact ⟨rest, by simp [deleteList, ha]⟩
    · have hfa : List.find? (fun x => idMatches x args.event_id) (a :: rest) =
          List.find? (fun x => idMatches x args.event_id) rest :=
        List.find?_cons_of_neg rest ha
      rw [hfa] at h
      obtain ⟨l2, hl2⟩ := ih e h
      exact ⟨a :: l2, by simp [deleteList, ha, hl2]⟩

theorem deleteList_eq_none (args : ArgsObj) :
    ∀ (l : List Event), (∀ x ∈ l, idMatches x args.event_id = false) →
      deleteList args l = none := by
  intro l
  induction l with
  | nil => intro _; rfl
  | cons a rest ih =>
    intro h
    have ha : idMatches a args.event_id = false := h a (by simp)
    have hrest := ih (fun x hx => h x (by simp [hx]))
    simp [deleteList, ha, hrest]

theorem getEvent_not_found (args : ArgsObj) (s : Store)
    (h : ∀ e ∈ s.events, idMatches e args.event_id = false) :
    getEvent args s = .error ("Event not found: " ++ idText args.event_id) := by
  have : s.events.find? (fun e => idMatches e args.event_id) = none :=
    List.find?_eq_none.mpr (fun x hx => by simp [h x hx])
  simp [getEvent, this]

theorem updateEvent_not_found (args : ArgsObj) (now : Int) (s : Store)
    (h : ∀ e ∈ s.events, idMatches e args.event_id = false) :
    updateEvent args now s = .error ("Event not found: " ++ idText args.event_id) := by
  simp [updateEvent, updateList_eq_none args now s.events h]

theorem deleteEvent_not_found (args : ArgsObj) (s : Store)
    (h : ∀ e ∈ s.events, idMatches e args.event_id = false) :
    deleteEvent args s = .error ("Event not found: " ++ idText args.event_id) := by
  simp [deleteEvent, deleteList_eq_none args s.events h]

theorem WF_createEvent (args : ArgsObj) (now : Int) (s : Store) (h : WF s) :
    WF (createEvent args now s).2 := by
  obtain ⟨hb, hn⟩ := h
  constructor
  · intro e he
    simp [createEvent] at he
    rcases he with he | rfl
    · exact Nat.lt_succ_of_lt (hb e he)
    · exact Nat.lt_succ_self _
  · simp only [createEvent, List.map_append, List.map_cons, List.map_nil]
    rw [List.nodup_append]
    refine ⟨hn, List.nodup_singleton _, ?_⟩
    intro x hx hx'
    simp at hx'
    obtain ⟨e, he, rfl⟩ := List.mem_map.mp hx
    exact absurd hx' (Nat.ne_of_lt (hb e he))

theorem Unused_createEvent (args : ArgsObj) (now : Int) (s : Store) (eid : Nat)
    (h : Unused s eid) : Unused (createEvent args now s).2 eid := by
  obtain ⟨hlt, hmem⟩ := h
  refine ⟨Nat.lt_succ_of_lt hlt, ?_⟩
  intro e he
  simp [createEvent] at he
  rcases he with he | rfl
  · exact hmem e he
  · exact (Nat.ne_of_lt hlt).symm

theorem mem_map_id_of_mem {l : List Event} {e : Event} (he : e ∈ l) :
    e.id ∈ l.map (fun x => x.id) := List.mem_map.mpr ⟨e, he, rfl⟩

theorem WF_updateEvent (args : ArgsObj) (now : Int) (s : Store) (e2 : Event)
    (s2 : Store) (hu : updateEvent args now s = .ok (e2, s2)) (h : WF s) :
    WF s2 := by
  obtain ⟨hb, hn⟩ := h
  rcases hul : updateList args now s.events with _ | p
  · simp [updateEvent, hul] at hu
  · rw [updateEvent, hul] at hu
    simp at hu
    obtain ⟨rfl, rfl⟩ := hu
    have hmap := updateList_map_id args now s.events p.1 p.2 hul
    constructor
    · intro e he
      have : e.id ∈ p.2.map (fun x => x.id) := mem_map_id_of_mem he
      rw [hmap] at this
      obtain ⟨y, hy, hye⟩ := List.mem_map.mp this
      simpa [hye] using hb y hy
    · simpa [hmap] using hn

theorem Unused_updateEvent (args : ArgsObj) (now : Int) (s : Store) (e2 : Event)
    (s2 : Store) (hu : updateEvent args now s = .ok (e2, s2)) (h : Unused s eid) :
    Unused s2 eid := by
  obtain ⟨hlt, hmem⟩ := h
  rcases hul : updateList args now s.events with _ | p
  · simp [updateEvent, hul] at hu
  · rw [updateEvent, hul] at hu
    simp at hu
    obtain ⟨rfl, rfl⟩ := hu
    have hmap := updateList_map_id args now s.events p.1 p.2 hul
    refine ⟨hlt, ?_⟩
    intro e he
    have : e.id ∈ p.2.map (fun x => x.id) := mem_map_id_of_mem he
    rw [hmap] at this
    obtain ⟨y, hy, hye⟩ := List.mem_map.mp this
    rw [← hye]
    exact hmem y hy

theorem deleteEvent_sublist (args : ArgsObj) (s : Store) (d : Event) (s2 : Store)
    (hd : deleteEvent args s = .ok (d, s2)) :
    s2.events.Sublist s.events ∧ s2.nextId = s.nextId := by
  rcases hdl : deleteList args s.events with _ | p
  · simp [deleteEvent, hdl] at hd
  · rw [deleteEvent, hdl] at hd
    simp at hd
    obtain ⟨rfl, rfl⟩ := hd
    obtain ⟨l₁, l₂, hl, hl2, _⟩ := deleteList_eq_some args s.events p.1 p.2 hdl
    refine ⟨?_, rfl⟩
    rw [hl, hl2]
    exact List.Sublist.append_left (List.sublist_cons_self _ _) l₁

theorem WF_deleteEvent (args : ArgsObj) (s : Store) (d : Event) (s2 : Store)
    (hd : deleteEvent args s = .ok (d, s2)) (h : WF s) : WF s2 := by
  obtain ⟨hb, hn⟩ := h
  obtain ⟨hsub, hnext⟩ := deleteEvent_sublist args s d s2 hd
  constructor
  · intro e he
    rw [hnext]
    exact hb e (hsub.mem he)
  · exact (hsub.map (fun x => x.id)).nodup hn

theorem Unused_deleteEvent (args : ArgsObj) (s : Store) (d : Event) (s2 : Store)
    (hd : deleteEvent args s = .ok (d, s2)) (h : Unused s eid) : Unused s2 eid := by
  obtain ⟨hlt, hmem⟩ := h
  obtain ⟨hsub, hnext⟩ := deleteEvent_sublist args s d s2 hd
  exact ⟨hnext ▸ hlt, fun e he => hmem e (hsub.mem he)⟩

theorem handleToolCall_ok_store (name : String) (args : ArgsObj) (now : Int)
    (s : Store) (r : ToolResult) (s2 : Store)
    (h : handleToolCall name args now s = .ok (r, s2)) :
    s2 = s ∨ s2 = (createEvent args now s).2 ∨
      (∃ e2, updateEvent args now s = .ok (e2, s2)) ∨
      (∃ d, deleteEvent args s = .ok (d, s2)) := by
  unfold handleToolCall at h
  split_ifs at h with h1 h2 h3 h4 h5 h6
  · right; left
    simp at h
    exact h.2.symm
  · left
    simp at h
    exact h.2.symm
  · rcases hg : getEvent args s with msg | e
    · rw [hg] at h; simp [Except.map] at h
    · rw [hg] at h; simp [Except.map] at h
      exact Or.inl h.2.symm
  · rcases hu : updateEvent args now s with msg | p
    · rw [hu] at h; simp [Except.map] at h
    · obtain ⟨e2, s3⟩ := p
      rw [hu] at h
      injection h with h'
      injection h' with ha hb
      subst hb
      exact Or.inr (Or.inr (Or.inl ⟨e2, rfl⟩))
  · rcases hd : deleteEvent args s with msg | p
    · rw [hd] at h; simp [Except.map] at h
    · obtain ⟨d0, s3⟩ := p
      rw [hd] at h
      injection h with h'
      injection h' with ha hb
      subst hb
      exact Or.inr (Or.inr (Or.inr ⟨d0, rfl⟩))
  · rcases hq : searchEvents args s with msg | l
    · rw [hq] at h; simp [Except.map] at h
    · rw [hq] at h
      injection h with h'
      injection h' with ha hb
      subst hb
      exact Or.inl rfl

theorem execOp_preserves (s : Store) (o : Op) (eid : Nat)
    (hwf : WF s) (hun : Unused s eid) :
    WF (execOp s o) ∧ Unused (execOp s o) eid := by
  unfold execOp
  rcases h : handleToolCall o.name o.args o.now s with msg | p
  · exact ⟨hwf, hun⟩
  · obtain ⟨r, s2⟩ := p
    show WF s2 ∧ Unused s2 eid
    rcases handleToolCall_ok_store o.name o.args o.now s r s2 h with
      rfl | h2 | ⟨e2, hu⟩ | ⟨d, hd⟩
    · exact ⟨hwf, hun⟩
    · rw [h2]
      exact ⟨WF_createEvent o.args o.now s hwf, Unused_createEvent o.args o.now s eid hun⟩
    · exact ⟨WF_updateEvent o.args o.now s e2 s2 hu hwf,
        Unused_updateEvent o.args o.now s e2 s2 hu hun⟩
    · exact ⟨WF_deleteEvent o.args s d s2 hd hwf,
        Unused_deleteEvent o.args s d s2 hd hun⟩

theorem run_preserves (eid : Nat) :
    ∀ (ops : List Op) (s : Store), WF s → Unused s eid →
      WF (run s ops) ∧ Unused (run s ops) eid := by
  intro ops
  induction ops with
  | nil => intro s hwf hun; exact ⟨hwf, hun⟩
  | cons o rest ih =>
    intro s hwf hun
    obtain ⟨hwf2, hun2⟩ := execOp_preserves s o eid hwf hun
    simpa [run, List.foldl_cons] using ih (execOp s o) hwf2 hun2

theorem listContains_iff (needle : List Char) :
    ∀ (hay : List Char), listContains needle hay = true ↔ needle <:+: hay := by
  intro hay
  induction hay with
  | nil =>
    simp [listContains, List.isPrefixOf_iff_prefix, List.prefix_nil, List.infix_nil]
  | cons c rest ih =>
    simp [listContains, List.isPrefixOf_iff_prefix, ih, List.infix_cons_iff]

/-! Claim theorems. -/

/-- C8: an envelope whose `jsonrpc` field is not the literal "2.0" is
answered with error −32600 "Invalid Request" (no data), echoing the
request id verbatim, whatever the method, and the store is unchanged. -/
theorem invalid_jsonrpc_rejected (req : RpcRequest) (now : Int) (s : Store)
    (h : req.jsonrpc ≠ "2.0") :
    handleRequest req now s = (createError req.id (-32600) "Invalid Request", s) := by
  simp [handleRequest, h]

/-- C8 witness: a `jsonrpc:"1.0"` envelope carrying a mutating
`tools/call` is rejected with −32600 and the store stays as it was. -/
theorem invalid_jsonrpc_rejected_witness :
    handleRequest
      { jsonrpc := "1.0", method := "tools/call",
        params := some { name := "create_event" }, id := .num 7 }
      0 { events := [], nextId := 0 } =
    (createError (.num 7) (-32600) "Invalid Request", { events := [], nextId := 0 }) :=
  invalid_jsonrpc_rejected _ 0 _ (by decide)

/-- C7: any tool-call failure (any `handleToolCall` throw, in particular
an unknown tool name) is reported as −32603 "Internal error" with the
thrown message as `data`, using `req.body?.id || null` as response id,
and the store is unchanged. -/
theorem uncaught_failure_internal_error :
    (∀ (req : RpcRequest) (now : Int) (s : Store) (p : RpcParams) (msg : String),
      req.jsonrpc = "2.0" → req.method = "tools/call" → req.params = some p →
      handleToolCall p.name p.arguments now s = .error msg →
      handleRequest req now s =
        (createError (recoverId req.id) (-32603) "Internal error" (some msg), s)) ∧
    (∀ (req : RpcRequest) (now : Int) (s : Store) (p : RpcParams),
      req.jsonrpc = "2.0" → req.method = "tools/call" → req.params = some p →
      knownTool p.name = false →
      handleRequest req now s =
        (createError (recoverId req.id) (-32603) "Internal error"
          (some ("Unknown tool: " ++ p.name)), s)) := by
  constructor
  · intro req now s p msg h1 h2 h3 h4
    simp [handleRequest, h1, h2, h3, h4]
  · intro req now s p h1 h2 h3 h4
    simp [knownTool] at h4
    obtain ⟨⟨⟨⟨⟨n1, n2⟩, n3⟩, n4⟩, n5⟩, n6⟩ := h4
    have herr : handleToolCall p.name p.arguments now s =
        .error ("Unknown tool: " ++ p.name) := by
      simp [handleToolCall, n1, n2, n3, n4, n5, n6]
    simp [handleRequest, h1, h2, h3, herr]

/-- C7 witness: a `tools/call` with the unknown tool "nope" and the
falsy id `0` gets −32603 with data "Unknown tool: nope" and id `null`. -/
theorem uncaught_failure_internal_error_witness :
    handleRequest
      { jsonrpc := "2.0", method := "tools/call",
        params := some { name := "nope" }, id := .num 0 }
      0 { events := [], nextId := 0 } =
    (createError .null (-32603) "Internal error" (some "Unknown tool: nope"),
      { events := [], nextId := 0 }) :=
  uncaught_failure_internal_error.2 _ 0 _ { name := "nope" } rfl rfl rfl (by decide)

/-- C9 (remote variant): a `tools/call` while `isAuthenticated()` is
false short-circuits with −32001 "Authentication required" and a
non-empty `auth_url` of the form `BASE_URL + "/auth"`; no dispatch to
the tool layer happens. -/
theorem unauthenticated_tools_call (baseUrl : String) (t : Tokens) (req : RpcRequest)
    (h1 : req.jsonrpc = "2.0") (h2 : req.method = "tools/call")
    (h3 : isAuthenticated t = false) :
    routeRemote baseUrl t req =
      .respondError (-32001) "Authentication required" (some (baseUrl ++ "/auth")) ∧
    baseUrl ++ "/auth" ≠ "" ∧
    ∀ p, routeRemote baseUrl t req ≠ .dispatch p := by
  have hr : routeRemote baseUrl t req =
      .respondError (-32001) "Authentication required" (some (baseUrl ++ "/auth")) := by
    simp [routeRemote, h1, h2, h3]
  refine ⟨hr, ?_, ?_⟩
  · intro hempty
    have hlen := congrArg String.length hempty
    rw [String.length_append] at hlen
    have h5 : ("/auth" : String).length = 5 := rfl
    have h0 : ("" : String).length = 0 := rfl
    omega
  · intro p hp
    rw [hr] at hp
    exact RemoteAction.noConfusion hp

/-- C9 witness: with no stored credential at all (the startup state of
`userTokens = {}`), a `tools/call` gets −32001 with the concrete
non-empty auth url. -/
theorem unauthenticated_tools_call_witness :
    routeRemote "http://localhost:3000" {} 
      { jsonrpc := "2.0", method := "tools/call",
        params := some { name := "create_event" }, id := .num 1 } =
      .respondError (-32001) "Authentication required"
        (some "http://localhost:3000/auth") ∧
    ("http://localhost:3000/auth" : String) ≠ "" := by
  have h := unauthenticated_tools_call "http://localhost:3000" {}
    { jsonrpc := "2.0", method := "tools/call",
      params := some { name := "create_event" }, id := .num 1 } rfl rfl (by decide)
  exact ⟨h.1, h.2.1⟩

/-- A minimal well-formed event used in concrete checks. -/
def sampleEvent (i : Nat) : Event :=
  { id := i, title := some "E", description := "", start_time := some 0,
    end_time := some 0, location := "", attendees := [], created_at := 0,
    updated_at := none }

/-- A store holding one event. -/
def oneStore : Store := { events := [sampleEvent 0], nextId := 1 }

/-- A store holding eleven events. -/
def elevenStore : Store :=
  { events := (List.range 11).map sampleEvent, nextId := 11 }

/-- C1 counterexample: a `tools/call` of `create_event` whose argument
object omits `title`, `start_time` and `end_time` does NOT fail — the
response is a success and an event (with those fields `undefined`) is
appended to the store, contradicting the claimed −32603 failure with no
append. -/
theorem create_missing_fields_counterexample :
    (handleRequest
        { jsonrpc := "2.0", method := "tools/call",
          params := some { name := "create_event", arguments := {} }, id := .num 1 }
        0 { events := [], nextId := 0 }).1.outcome =
      .ok (.toolResult (.created
        { id := 0, title := none, description := "", start_time := none,
          end_time := none, location := "", attendees := [], created_at := 0,
          updated_at := none })) ∧
    (handleRequest
        { jsonrpc := "2.0", method := "tools/call",
          params := some { name := "create_event", arguments := {} }, id := .num 1 }
        0 { events := [], nextId := 0 }).2.events.length = 1 := by
  constructor <;> rfl

/-- C1 amended: the local `createEvent` performs no required-field
validation: every `tools/call` of `create_event` succeeds with an `ok`
response, appending exactly one event whose `title`, `start_time` and
`end_time` are exactly the supplied values (`undefined` when omitted),
with defaults for `description`, `location`, `attendees`. -/
theorem create_event_no_validation (req : RpcRequest) (p : RpcParams)
    (now : Int) (s : Store)
    (h1 : req.jsonrpc = "2.0") (h2 : req.method = "tools/call")
    (h3 : req.params = some p) (h4 : p.name = "create_event") :
    handleRequest req now s =
      (createResponse req.id (.toolResult (.created (createEvent p.arguments now s).1)),
        { events := s.events ++ [(createEvent p.arguments now s).1],
          nextId := s.nextId + 1 }) ∧
    ((createEvent p.arguments now s).1).title = p.arguments.title ∧
    ((createEvent p.arguments now s).1).start_time = p.arguments.start_time ∧
    ((createEvent p.arguments now s).1).end_time = p.arguments.end_time ∧
    ((createEvent p.arguments now s).1).description = p.arguments.description.getD "" ∧
    ((createEvent p.arguments now s).1).location = p.arguments.location.getD "" ∧
    ((createEvent p.arguments now s).1).attendees = p.arguments.attendees.getD [] := by
  refine ⟨?_, rfl, rfl, rfl, rfl, rfl, rfl⟩
  simp [handleRequest, h1, h2, h3, h4, handleToolCall, createEvent]

/-- C1 witness: instantiating the amended statement on a concrete store
and an argument object missing all three required fields. -/
theorem create_event_no_validation_witness :
    handleRequest
      { jsonrpc := "2.0", method := "tools/call",
        params := some { name := "create_event", arguments := {} }, id := .num 2 }
      5 oneStore =
    (createResponse (.num 2) (.toolResult (.created (createEvent {} 5 oneStore).1)),
      { events := oneStore.events ++ [(createEvent {} 5 oneStore).1],
        nextId := oneStore.nextId + 1 }) ∧
    ((createEvent ({} : ArgsObj) 5 oneStore).1).title = none := by
  have h := create_event_no_validation
    { jsonrpc := "2.0", method := "tools/call",
      params := some { name := "create_event", arguments := {} }, id := .num 2 }
    { name := "create_event", arguments := {} } 5 oneStore rfl rfl rfl rfl
  exact ⟨h.1, h.2.1⟩

/-- C10: a supplied `limit` (or `max_results`) of `0` is falsy, so
`args.limit || 10` applies the default: `list_events` and
`search_events` behave exactly as if `limit` were absent, the remote
variant's `maxResults` becomes 10, and a store of eleven events yields
ten results rather than zero. -/
theorem limit_zero_treated_as_absent :
    (∀ (args : ArgsObj) (s : Store),
      listEvents { args with limit := some 0 } s =
        listEvents { args with limit := none } s) ∧
    (∀ (args : ArgsObj) (s : Store),
      searchEvents { args with limit := some 0 } s =
        searchEvents { args with limit := none } s) ∧
    (∀ rargs : RemoteListArgs,
      buildListParams { rargs with max_results := some 0 } =
        buildListParams { rargs with max_results := none }) ∧
    (listEvents { limit := some 0 } elevenStore).length = 10 := by
  refine ⟨fun args s => rfl, fun args s => rfl, fun rargs => rfl, ?_⟩
  rfl

/-- C3 counterexample: with a supplied `limit = 0` the claim demands at
most 0 entries, but `listEvents` on a one-event store returns 1 entry
(the falsy `0` falls back to the default 10). -/
theorem list_events_limit_zero_counterexample :
    ({ limit := some 0 : ArgsObj }).limit = some 0 ∧
    ¬ ((listEvents { limit := some 0 } oneStore).length ≤ 0) := by
  constructor
  · rfl
  · decide

/-- Membership in the filtered sequence forces the date bounds
(evaluated on `start_time` only). -/
theorem mem_bothFiltered_bounds (args : ArgsObj) (l : List Event) (e : Event)
    (he : e ∈ bothFiltered args l) :
    (∀ d, args.start_date = some d → ∃ t, e.start_time = some t ∧ d ≤ t) ∧
    (∀ d, args.end_date = some d → ∃ t, e.start_time = some t ∧ t ≤ d) := by
  have hstart : e ∈ startFiltered args l ∧
      (∀ d, args.end_date = some d → dateLe e.start_time d = true) := by
    unfold bothFiltered at he
    rcases hed : args.end_date with _ | d
    · rw [hed] at he
      exact ⟨he, fun d hd => by cases hd⟩
    · rw [hed] at he
      obtain ⟨hmem, hle⟩ := List.mem_filter.mp he
      refine ⟨hmem, fun d2 hd2 => ?_⟩
      cases hd2
      exact hle
  constructor
  · intro d hd
    obtain ⟨hmem, _⟩ := hstart
    unfold startFiltered at hmem
    rw [hd] at hmem
    obtain ⟨_, hge⟩ := List.mem_filter.mp hmem
    unfold dateGe at hge
    rcases hst : e.start_time with _ | t
    · rw [hst] at hge; cases hge
    · rw [hst] at hge
      exact ⟨t, rfl, by simpa using hge⟩
  · intro d hd
    have hle := hstart.2 d hd
    unfold dateLe at hle
    rcases hst : e.start_time with _ | t
    · rw [hst] at hle; cases hle
    · rw [hst] at hle
      exact ⟨t, rfl, by simpa using hle⟩

/-- C3 amended: every `list_events` result is a prefix of the filtered
insertion-ordered sequence, has at most `args.limit || 10` entries
(supplied nonzero limit; default 10 when absent or 0), and every
returned event satisfies the supplied `start_date`/`end_date` bounds,
both evaluated against `start_time` only. -/
theorem list_events_filter_and_limit (args : ArgsObj) (s : Store) :
    (listEvents args s).length ≤ jsOrDefault args.limit 10 ∧
    listEvents args s <+: bothFiltered args s.events ∧
    (∀ n, n ≠ 0 → jsOrDefault (some n) 10 = n) ∧ jsOrDefault none 10 = 10 ∧
    (∀ e ∈ listEvents args s,
      (∀ d, args.start_date = some d → ∃ t, e.start_time = some t ∧ d ≤ t) ∧
      (∀ d, args.end_date = some d → ∃ t, e.start_time = some t ∧ t ≤ d)) := by
  refine ⟨List.length_take_le _ _, List.take_prefix _ _, ?_, rfl, ?_⟩
  · intro n hn
    cases n with
    | zero => exact absurd rfl hn
    | succ m => rfl
  · intro e he
    exact mem_bothFiltered_bounds args s.events e (List.mem_of_mem_take he)

/-- C3 witness: concrete filtered listing — limit 2, start bound 0,
end bound 5 — instantiating the amended statement. -/
theorem list_events_filter_and_limit_witness :
    (listEvents { start_date := some 0, end_date := some 5, limit := some 2 }
        oneStore).length ≤ 2 ∧
    (∃ t, (sampleEvent 0).start_time = some t ∧ (0 : Int) ≤ t) := by
  have h := list_events_filter_and_limit
    { start_date := some 0, end_date := some 5, limit := some 2 } oneStore
  refine ⟨h.1, ?_⟩
  exact (h.2.2.2.2 (sampleEvent 0) (by decide)).1 0 rfl

/-- C5: a `get_event`, `update_event` or `delete_event` naming an id no
stored event carries fails with the "Event not found" error (surfaced
as −32603) and the store is exactly unchanged. -/
theorem not_found_is_atomic (req : RpcRequest) (p : RpcParams) (now : Int)
    (s : Store)
    (h1 : req.jsonrpc = "2.0") (h2 : req.method = "tools/call")
    (h3 : req.params = some p)
    (h4 : p.name = "get_event" ∨ p.name = "update_event" ∨ p.name = "delete_event")
    (h5 : ∀ e ∈ s.events, idMatches e p.arguments.event_id = false) :
    handleRequest req now s =
      (createError (recoverId req.id) (-32603) "Internal error"
        (some ("Event not found: " ++ idText p.arguments.event_id)), s) := by
  have herr : handleToolCall p.name p.arguments now s =
      .error ("Event not found: " ++ idText p.arguments.event_id) := by
    rcases h4 with h4 | h4 | h4 <;> rw [h4] <;>
      simp [handleToolCall, Except.map,
        getEvent_not_found p.arguments s h5,
        updateEvent_not_found p.arguments now s h5,
        deleteEvent_not_found p.arguments s h5]
  simp [handleRequest, h1, h2, h3, herr]

/-- C5 witness: `delete_event` on the absent id 42 answers −32603 with
"Event not found: 42" and leaves the one-event store untouched. -/
theorem not_found_is_atomic_witness :
    handleRequest
      { jsonrpc := "2.0", method := "tools/call",
        params := some { name := "delete_event", arguments := { event_id := some 42 } },
        id := .num 3 }
      0 oneStore =
    (createError (.num 3) (-32603) "Internal error"
      (some "Event not found: 42"), oneStore) := by
  have h := not_found_is_atomic
    { jsonrpc := "2.0", method := "tools/call",
      params := some { name := "delete_event", arguments := { event_id := some 42 } },
      id := .num 3 }
    { name := "delete_event", arguments := { event_id := some 42 } }
    0 oneStore rfl rfl rfl (Or.inr (Or.inr rfl)) (by decide)
  rw [h]
  rfl

/-- C2: updating an existing event overwrites exactly the supplied
fields (a supplied empty/falsy value counts as supplied), keeps every
unsupplied field — in particular `id` and `created_at` — byte-identical,
rewrites only that event in place, and sets `updated_at` to the current
clock, which under clock monotonicity is ≥ the prior
`updated_at`/`created_at`. -/
theorem update_event_partial_fields (args : ArgsObj) (now : Int) (s : Store)
    (e : Event)
    (hfind : s.events.find? (fun x => idMatches x args.event_id) = some e)
    (hc : e.created_at ≤ now)
    (hmono : ∀ t, e.updated_at = some t → t ≤ now) :
    ∃ l₁ l₂,
      s.events = l₁ ++ e :: l₂ ∧
      updateEvent args now s =
        .ok (applyUpdate args e now,
          { events := l₁ ++ applyUpdate args e now :: l₂, nextId := s.nextId }) ∧
      (applyUpdate args e now).id = e.id ∧
      (applyUpdate args e now).created_at = e.created_at ∧
      (applyUpdate args e now).title =
        (match args.title with | some v => some v | none => e.title) ∧
      (applyUpdate args e now).description = args.description.getD e.description ∧
      (applyUpdate args e now).start_time =
        (match args.start_time with | some v => some v | none => e.start_time) ∧
      (applyUpdate args e now).end_time =
        (match args.end_time with | some v => some v | none => e.end_time) ∧
      (applyUpdate args e now).location = args.location.getD e.location ∧
      (applyUpdate args e now).attendees = args.attendees.getD e.attendees ∧
      (∃ tn, (applyUpdate args e now).updated_at = some tn ∧
        e.created_at ≤ tn ∧ ∀ t, e.updated_at = some t → t ≤ tn) := by
  obtain ⟨l₁, l₂, hl, hnone, hupd⟩ := updateList_of_find? args now s.events e hfind
  refine ⟨l₁, l₂, hl, ?_, rfl, rfl, rfl, rfl, rfl, rfl, rfl, rfl,
    now, rfl, hc, hmono⟩
  rw [updateEvent, hupd]

/-- The pre-update event of the C2 concrete check. -/
def wuEvent : Event :=
  { id := 5, title := some "Old", description := "d", start_time := some 10,
    end_time := some 20, location := "Room", attendees := ["a"],
    created_at := 3, updated_at := none }

/-- The store of the C2 concrete check. -/
def wuStore : Store := { events := [wuEvent], nextId := 6 }

/-- The update arguments of the C2 concrete check: empty title is
explicitly supplied, `location` is replaced, everything else absent. -/
def wuArgs : ArgsObj :=
  { event_id := some 5, title := some "", location := some "Room A" }

/-- C2 witness: update with an explicitly-supplied empty title and a new
location; `description`, `start_time`, `id`, `created_at` stay
byte-identical, `updated_at` becomes the (later) clock value. -/
theorem update_event_partial_fields_witness :
    ∃ e2 s2,
      updateEvent wuArgs 9 wuStore = .ok (e2, s2) ∧
      e2.title = some "" ∧ e2.location = "Room A" ∧ e2.description = "d" ∧
      e2.start_time = some 10 ∧ e2.id = 5 ∧ e2.created_at = 3 ∧
      e2.updated_at = some 9 := by
  have h := update_event_partial_fields wuArgs 9 wuStore wuEvent
    (by decide) (by decide) (fun t ht => by cases ht)
  obtain ⟨l₁, l₂, hl, hupd, _⟩ := h
  exact ⟨_, _, hupd, rfl, rfl, rfl, rfl, rfl, rfl, rfl⟩

/-- The search predicate on an event with a present title. -/
def eventMatches (q : String) (e : Event) : Bool :=
  containsCI (e.title.getD "") q || containsCI e.description q

theorem searchFilter_eq (q : String) :
    ∀ (l : List Event), (∀ e ∈ l, e.title.isSome = true) →
      searchFilter q l = some (l.filter (fun e => eventMatches q e)) := by
  intro l
  induction l with
  | nil => intro _; rfl
  | cons a rest ih =>
    intro h
    have ha := h a (by simp)
    rcases hta : a.title with _ | t
    · rw [hta] at ha; cases ha
    · have hrest := ih (fun e he => h e (List.mem_cons_of_mem _ he))
      have hm : eventMatches q a = (containsCI t q || containsCI a.description q) := by
        simp [eventMatches, hta]
      simp only [searchFilter, searchMatch, hta, hrest, List.filter_cons, hm]

/-- C6 counterexample: with a supplied `limit = 0` the claim demands at
most 0 matches, but the falsy `0` falls back to the default 10 and the
single matching event is returned. -/
theorem search_events_limit_zero_counterexample :
    ({ query := some "e", limit := some 0 : ArgsObj }).limit = some 0 ∧
    searchEvents { query := some "e", limit := some 0 } oneStore =
      .ok [sampleEvent 0] ∧
    ¬ (([sampleEvent 0] : List Event).length ≤ 0) := by
  refine ⟨rfl, ?_, by decide⟩
  rfl

/-- C6 amended: for a store of title-carrying events, `search_events`
returns exactly the events whose lowercased title or description
contains the lowercased query as a substring (`containsCI` coincides
with list-infix containment), in store order, truncated to
`args.limit || 10` entries (a supplied 0 falls back to the default 10);
in particular "meeting" matches the title "Team Meeting". -/
theorem search_events_spec (args : ArgsObj) (s : Store) (q : String)
    (hq : args.query = some q) (ht : ∀ e ∈ s.events, e.title.isSome = true) :
    searchEvents args s =
      .ok ((s.events.filter (fun e => eventMatches q e)).take
        (jsOrDefault args.limit 10)) ∧
    (∀ hay needle : String,
      containsCI hay needle = true ↔
        needle.data.map Char.toLower <:+: hay.data.map Char.toLower) ∧
    ((s.events.filter (fun e => eventMatches q e)).take
      (jsOrDefault args.limit 10)).length ≤ jsOrDefault args.limit 10 ∧
    ((s.events.filter (fun e => eventMatches q e)).take
      (jsOrDefault args.limit 10)) <+: s.events.filter (fun e => eventMatches q e) ∧
    containsCI "Team Meeting" "meeting" = true := by
  refine ⟨?_, fun hay needle => listContains_iff _ _,
    List.length_take_le _ _, List.take_prefix _ _, by decide⟩
  simp [searchEvents, hq, searchFilter_eq q s.events ht]

/-- The "Team Meeting" event of the C6 concrete check. -/
def meetingEvent : Event :=
  { id := 0, title := some "Team Meeting", description := "", start_time := some 0,
    end_time := some 0, location := "", attendees := [], created_at := 0,
    updated_at := none }

/-- C6 witness: searching "meeting" over a store holding the
"Team Meeting" event returns that event. -/
theorem search_events_spec_witness :
    searchEvents { query := some "meeting" } { events := [meetingEvent], nextId := 1 } =
      .ok [meetingEvent] := by
  have h := search_events_spec { query := some "meeting" }
    { events := [meetingEvent], nextId := 1 } "meeting" rfl (by decide)
  rw [h.1]
  rfl

/-- C4: after a successful `delete_event` of id `eid` from a
well-formed store, no sequence of further tool calls can make
`get_event eid` succeed again: the store never again contains `eid`,
no later `create_event` ever produces it, and ids stay pairwise
distinct. -/
theorem delete_event_id_never_reused (s : Store) (args : ArgsObj) (eid : Nat)
    (d : Event) (s2 : Store)
    (hwf : WF s) (hid : args.event_id = some eid)
    (hdel : deleteEvent args s = .ok (d, s2)) :
    ∀ ops : List Op,
      getEvent args (run s2 ops) =
        .error ("Event not found: " ++ idText args.event_id) ∧
      (∀ e ∈ (run s2 ops).events, e.id ≠ eid) ∧
      (∀ (args2 : ArgsObj) (now2 : Int),
        ((createEvent args2 now2 (run s2 ops)).1).id ≠ eid) ∧
      ((run s2 ops).events.map (fun e => e.id)).Nodup := by
  have hwf2 : WF s2 := WF_deleteEvent args s d s2 hdel hwf
  have hun2 : Unused s2 eid := by
    rcases hdl : deleteList args s.events with _ | p
    · rw [deleteEvent, hdl] at hdel
      exact absurd hdel (by simp)
    · obtain ⟨d0, l0⟩ := p
      rw [deleteEvent, hdl] at hdel
      injection hdel with hdel2
      injection hdel2 with hdeq hseq
      obtain ⟨l₁, l₂, hl, hl2, hm⟩ := deleteList_eq_some args s.events d0 l0 hdl
      have hd0id : d0.id = eid := by
        rw [hid] at hm
        simpa [idMatches] using hm
      have hd0mem : d0 ∈ s.events := by
        rw [hl]; exact List.mem_append_right _ (List.mem_cons_self _ _)
      have hlt : eid < s.nextId := hd0id ▸ hwf.1 d0 hd0mem
      have hnodup := hwf.2
      rw [hl, List.map_append, List.map_cons] at hnodup
      obtain ⟨n1, n2, disj⟩ := List.nodup_append.mp hnodup
      have hnotl2 : d0.id ∉ l₂.map (fun e => e.id) := (List.nodup_cons.mp n2).1
      have hnotl1 : d0.id ∉ l₁.map (fun e => e.id) := by
        intro hin
        exact disj hin (List.mem_cons_self _ _)
      constructor
      · rw [← hseq]
        exact hlt
      · intro e he
        rw [← hseq] at he
        simp only at he
        rw [hl2] at he
        intro heid
        rcases List.mem_append.mp he with h1 | h2
        · exact hnotl1 (by rw [← hd0id] at heid; exact heid ▸ mem_map_id_of_mem h1)
        · exact hnotl2 (by rw [← hd0id] at heid; exact heid ▸ mem_map_id_of_mem h2)
  intro ops
  obtain ⟨hwfr, hunr⟩ := run_preserves eid ops s2 hwf2 hun2
  have hnomatch : ∀ e ∈ (run s2 ops).events, idMatches e args.event_id = false := by
    intro e he
    rw [hid]
    simp only [idMatches]
    exact beq_eq_false_iff_ne.mpr (hunr.2 e he)
  refine ⟨getEvent_not_found args (run s2 ops) hnomatch, hunr.2, ?_, hwfr.2⟩
  intro args2 now2
  exact fun hcontra => absurd hcontra.symm (Nat.ne_of_lt hunr.1)

/-- C4 witness: delete the only event (id 0) of a one-event store, then
create a fresh event; `get_event 0` still fails and no stored event has
id 0 (the new event received id 1). -/
theorem delete_event_id_never_reused_witness :
    getEvent { event_id := some 0 }
        (run { events := [], nextId := 1 }
          [{ name := "create_event", args := {}, now := 0 }]) =
      .error "Event not found: 0" ∧
    ∀ e ∈ (run { events := [], nextId := 1 }
        [{ name := "create_event", args := {}, now := 0 }]).events, e.id ≠ 0 := by
  have h := delete_event_id_never_reused oneStore { event_id := some 0 } 0
    (sampleEvent 0) { events := [], nextId := 1 }
    ⟨by decide, by decide⟩ rfl rfl
    [{ name := "create_event", args := {}, now := 0 }]
  refine ⟨?_, h.2.1⟩
  rw [h.1]
  rfl
